import Mathlib

/-!
# Verification of the Spicy Bites payment & loyalty system

Shallow embedding of `payment_loyalty_system.py`: the SQLite tables become
lists of records, the `DatabaseManager` methods become functions on that
state, and `PaymentSystem.process_payment` becomes a state-transforming
function returning `Except` for its validation failures.  Python `float`
arithmetic is modelled by exact rationals (`ℚ`); Python's `round(x, 2)`
(banker's rounding, round-half-to-even) is modelled by `pyRoundInt`/`round2`,
and Python's `int()` (truncation toward zero) by `ratTrunc`.  Python's
`str.upper`/`str.strip` (ASCII case mapping as in Lean's `Char.toUpper`)
are modelled by structurally recursive `py_upper`/`py_strip`.
-/

/-- Python's `round` to the nearest integer, rounding halves to the even
neighbour (round-half-to-even), on exact rationals. -/
def pyRoundInt (x : ℚ) : ℤ :=
  let f := ⌊x⌋
  if x - f < 1/2 then f
  else if (1:ℚ)/2 < x - f then f + 1
  else if f % 2 = 0 then f else f + 1

/-- Python's `round(x, 2)`: round to two decimal places. -/
def round2 (x : ℚ) : ℚ := (pyRoundInt (x * 100) : ℚ) / 100

/-- Python's `int()` applied to a number: truncation toward zero. -/
def ratTrunc (x : ℚ) : ℤ := if x < 0 then -⌊-x⌋ else ⌊x⌋

/-- Python's `str.upper()` (ASCII case mapping). -/
def py_upper (s : String) : String := ⟨s.data.map Char.toUpper⟩

/-- Python's `str.strip()`: drop leading and trailing whitespace. -/
def py_strip (s : String) : String :=
  ⟨((s.data.dropWhile Char.isWhitespace).reverse.dropWhile Char.isWhitespace).reverse⟩

/-- A row of the `customers` table (`customer_id` omitted: `name` is the
`UNIQUE` lookup key used by every query of the program). -/
structure Customer where
  name : String
  contact : String
  membership : String
  loyalty_points : ℤ
  deriving Repr, DecidableEq

/-- A row of the `sales` table (`sale_id` omitted: never read back). -/
structure SaleRecord where
  timestamp : String
  customer_name : String
  processed_by : String
  subtotal : ℚ
  discount_amount : ℚ
  loyalty_redeemed : ℤ
  final_total : ℚ
  points_earned : ℤ
  deriving Repr, DecidableEq

/-- The whole SQLite database: the three tables. -/
structure DBState where
  customers : List Customer
  promo_codes : List (String × ℚ)
  sales : List SaleRecord
  deriving Repr, DecidableEq

/-- `DatabaseManager.get_customer`: `SELECT ... WHERE name = ?`. -/
def get_customer (db : DBState) (name : String) : Option Customer :=
  db.customers.find? (fun c => c.name == name)

/-- `DatabaseManager.add_or_update_customer`: `INSERT OR IGNORE` of the full
row followed by `UPDATE customers SET membership = ?, loyalty_points = ?
WHERE name = ?` (the `UPDATE` does not touch `contact`). -/
def add_or_update_customer (db : DBState) (name contact membership : String)
    (points : ℤ) : DBState :=
  let inserted :=
    if (db.customers.find? (fun c => c.name == name)).isSome then db.customers
    else db.customers ++ [⟨name, contact, membership, points⟩]
  { db with
    customers := inserted.map (fun c =>
      if c.name == name then { c with membership := membership, loyalty_points := points }
      else c) }

/-- `DatabaseManager.update_loyalty_points`:
`UPDATE customers SET loyalty_points = ? WHERE name = ?`. -/
def update_loyalty_points (db : DBState) (name : String) (points : ℤ) : DBState :=
  { db with
    customers := db.customers.map (fun c =>
      if c.name == name then { c with loyalty_points := points } else c) }

/-- `DatabaseManager.get_promo_discount`: `SELECT discount_rate FROM
promo_codes WHERE code = ?`, returning `0.0` when no row matches. -/
def get_promo_discount (db : DBState) (code : String) : ℚ :=
  match db.promo_codes.find? (fun p => p.1 == code) with
  | some p => p.2
  | none => 0

/-- `DatabaseManager.record_sale`: `INSERT INTO sales ...` (append). -/
def record_sale (db : DBState) (r : SaleRecord) : DBState :=
  { db with sales := db.sales ++ [r] }

/-- The database created by `DatabaseManager._create_tables` on a fresh
file: empty `customers` and `sales`, the two seeded promo codes. -/
def initialState : DBState :=
  ⟨[], [("SPICY10", 10/100), ("HOT20", 20/100)], []⟩

/-- The pure calculation of `PaymentSystem.process_payment`
(lines 218-239 and 251): promo discount, loyalty redemption, totals. -/
structure CalcResult where
  promo_discount : ℚ
  loyalty_value : ℚ
  loyalty_redeemed : ℤ
  intermediate_total : ℚ
  points_earned : ℤ
  final_total : ℚ
  deriving Repr, DecidableEq

/-- The calculation core of `PaymentSystem.process_payment`, parametrised by
the already-looked-up promo rate and customer point balance:
`promo_discount = round(subtotal * promo_rate, 2)`; if redeeming and
`current_points > 0`, `loyalty_value = min(round(subtotal*0.20, 2),
round(current_points*0.05, 2))` and `loyalty_redeemed =
int(loyalty_value/0.05)`; `intermediate_total` is the discounted subtotal
clamped at 0; `points_earned = int(intermediate_total*0.05)`;
`final_total = round(intermediate_total, 2)`. -/
def computeTransaction (subtotal promo_rate : ℚ) (current_points : ℤ)
    (redeem : Bool) : CalcResult :=
  let promo_discount := round2 (subtotal * promo_rate)
  let redemption :=
    if redeem ∧ 0 < current_points then
      let max_redeem_value := round2 (subtotal * (20/100))
      let possible_value := round2 ((current_points : ℚ) * (5/100))
      let loyalty_value := min max_redeem_value possible_value
      (loyalty_value, ratTrunc (loyalty_value / (5/100)))
    else ((0 : ℚ), (0 : ℤ))
  let loyalty_value := redemption.1
  let loyalty_redeemed := redemption.2
  let it := subtotal - promo_discount - loyalty_value
  let intermediate_total := if it < 0 then 0 else it
  let points_earned := ratTrunc (intermediate_total * (5/100))
  let final_total := round2 intermediate_total
  ⟨promo_discount, loyalty_value, loyalty_redeemed, intermediate_total,
    points_earned, final_total⟩

/-- The promo rate `process_payment` uses (line 216-217):
`promo = promo_entry.get().upper().strip()`, then the table lookup if the
code is non-empty, else `0.0`. -/
def effective_promo_rate (db : DBState) (promoInput : String) : ℚ :=
  let promo := py_strip (py_upper promoInput)
  if promo ≠ "" then get_promo_discount db promo else 0

/-- The validation failures of `PaymentSystem.process_payment`
(lines 199-213). -/
inductive PayError where
  | staffRequired
  | customerRequired
  | invalidAmount
  deriving Repr, DecidableEq

/-- The balance `process_payment` starts from (line 221-222):
`customer[2] if customer else 0`. -/
def current_balance (db : DBState) (name : String) : ℤ :=
  match get_customer db name with
  | some c => c.loyalty_points
  | none => 0

/-- The effectful part of `PaymentSystem.process_payment` after validation
(lines 216-264): look up promo rate and customer, run the calculation,
create the customer if absent, write the new balance, append the sale.
Returns the new database, the calculation result and the new balance. -/
def process_payment_apply (db : DBState) (staffInput nameInput : String)
    (subtotal : ℚ) (promoInput : String) (redeem : Bool) (timestamp : String) :
    DBState × CalcResult × ℤ :=
  let staff := py_strip staffInput
  let name := py_strip nameInput
  let promo_rate := effective_promo_rate db promoInput
  let customer := get_customer db name
  let current_points := current_balance db name
  let r := computeTransaction subtotal promo_rate current_points redeem
  let db1 :=
    if customer.isSome then db
    else add_or_update_customer db name "" "regular" 0
  let current_points1 := if customer.isSome then current_points else 0
  let np0 := current_points1 - r.loyalty_redeemed + r.points_earned
  let new_points := if np0 < 0 then 0 else np0
  let db2 := update_loyalty_points db1 name new_points
  let sale : SaleRecord :=
    ⟨timestamp, name, staff, subtotal, round2 (r.promo_discount + r.loyalty_value),
      r.loyalty_redeemed, r.final_total, r.points_earned⟩
  (record_sale db2 sale, r, new_points)

/-- `PaymentSystem.process_payment` (lines 197-264): reject blank staff,
blank customer name or negative subtotal, otherwise perform the
transaction.  (The subtotal arrives already parsed from the entry field;
non-numeric input is the same `invalidAmount` rejection.) -/
def process_payment (db : DBState) (staffInput nameInput : String)
    (subtotal : ℚ) (promoInput : String) (redeem : Bool) (timestamp : String) :
    Except PayError (DBState × CalcResult × ℤ) :=
  if py_strip staffInput = "" then .error .staffRequired
  else if py_strip nameInput = "" then .error .customerRequired
  else if subtotal < 0 then .error .invalidAmount
  else .ok (process_payment_apply db staffInput nameInput subtotal promoInput
    redeem timestamp)

/-- `PaymentSystem.process_payment` interrupted between the
`update_loyalty_points` commit (line 249) and the `record_sale` commit
(line 264): each `DatabaseManager` method issues its own `conn.commit()`,
so an execution that fails between the two leaves exactly this state. -/
def process_payment_ledger_only (db : DBState) (staffInput nameInput : String)
    (subtotal : ℚ) (promoInput : String) (redeem : Bool) :
    Except PayError DBState :=
  if py_strip staffInput = "" then .error .staffRequired
  else if py_strip nameInput = "" then .error .customerRequired
  else if subtotal < 0 then .error .invalidAmount
  else
    let name := py_strip nameInput
    let promo_rate := effective_promo_rate db promoInput
    let customer := get_customer db name
    let current_points := current_balance db name
    let r := computeTransaction subtotal promo_rate current_points redeem
    let db1 :=
      if customer.isSome then db
      else add_or_update_customer db name "" "regular" 0
    let current_points1 := if customer.isSome then current_points else 0
    let np0 := current_points1 - r.loyalty_redeemed + r.points_earned
    let new_points := if np0 < 0 then 0 else np0
    .ok (update_loyalty_points db1 name new_points)

/-- `PaymentSystem.add_update_customer` (lines 187-195): reject a blank
name, otherwise upsert with membership `'regular'` and points `0`. -/
def add_update_customer (db : DBState) (nameInput : String) :
    Except PayError DBState :=
  if py_strip nameInput = "" then .error .customerRequired
  else .ok (add_or_update_customer db (py_strip nameInput) "" "regular" 0)

/-- One user-level operation of the program: a successful
`process_payment` or a successful `add_update_customer` (the remaining
GUI actions, `load_customer` and `show_receipt`, never write to the
database). -/
inductive Step : DBState → DBState → Prop where
  | pay (db : DBState) (staffInput nameInput : String) (subtotal : ℚ)
      (promoInput : String) (redeem : Bool) (timestamp : String)
      (db2 : DBState) (r : CalcResult) (np : ℤ)
      (h : process_payment db staffInput nameInput subtotal promoInput redeem
        timestamp = .ok (db2, r, np)) : Step db db2
  | addUpd (db : DBState) (nameInput : String) (db2 : DBState)
      (h : add_update_customer db nameInput = .ok db2) : Step db db2

/-- Database states reachable from the freshly created database through
the program's operations. -/
inductive Reachable : DBState → Prop where
  | init : Reachable initialState
  | step {a b : DBState} : Reachable a → Step a b → Reachable b

/-! ## Basic facts about the rounding and truncation models -/

theorem pyRoundInt_intCast (n : ℤ) : pyRoundInt (n : ℚ) = n := by
  simp only [pyRoundInt, Int.floor_intCast]
  rw [if_pos]
  norm_num

theorem floor_le_pyRoundInt (x : ℚ) : ⌊x⌋ ≤ pyRoundInt x := by
  simp only [pyRoundInt]
  split_ifs <;> omega

theorem pyRoundInt_le_floor_add_one (x : ℚ) : pyRoundInt x ≤ ⌊x⌋ + 1 := by
  simp only [pyRoundInt]
  split_ifs <;> omega

theorem pyRoundInt_nonneg {x : ℚ} (h : 0 ≤ x) : 0 ≤ pyRoundInt x := by
  have hf : 0 ≤ ⌊x⌋ := Int.floor_nonneg.mpr h
  have := floor_le_pyRoundInt x
  omega

theorem pyRoundInt_mono {x y : ℚ} (h : x ≤ y) : pyRoundInt x ≤ pyRoundInt y := by
  have hf : ⌊x⌋ ≤ ⌊y⌋ := Int.floor_mono h
  rcases eq_or_lt_of_le hf with heq | hlt
  · simp only [pyRoundInt, ← heq]
    split_ifs <;> first | omega | linarith
  · have h1 := pyRoundInt_le_floor_add_one x
    have h2 := floor_le_pyRoundInt y
    omega

theorem pyRoundInt_le_add_half (x : ℚ) : (pyRoundInt x : ℚ) ≤ x + 1/2 := by
  have hfl := Int.floor_le x
  simp only [pyRoundInt]
  split_ifs <;> push_cast <;> linarith

theorem sub_half_le_pyRoundInt (x : ℚ) : x - 1/2 ≤ (pyRoundInt x : ℚ) := by
  have hfl := Int.lt_floor_add_one x
  simp only [pyRoundInt]
  split_ifs <;> push_cast <;> linarith

theorem pyRoundInt_int_add_of_ne_half (n : ℤ) {x : ℚ} (h : x - ⌊x⌋ ≠ 1/2) :
    pyRoundInt ((n : ℚ) + x) = n + pyRoundInt x := by
  simp only [pyRoundInt, Int.floor_int_add]
  have hsub : (n : ℚ) + x - ((n + ⌊x⌋ : ℤ) : ℚ) = x - ⌊x⌋ := by push_cast; ring
  rw [hsub]
  split_ifs <;> first | omega | exact absurd (by linarith) h

theorem round2_nonneg {x : ℚ} (h : 0 ≤ x) : 0 ≤ round2 x := by
  have : (0 : ℤ) ≤ pyRoundInt (x * 100) := pyRoundInt_nonneg (by linarith)
  simp only [round2]
  positivity

theorem round2_mono {x y : ℚ} (h : x ≤ y) : round2 x ≤ round2 y := by
  simp only [round2]
  have := pyRoundInt_mono (show x * 100 ≤ y * 100 by linarith)
  have hc : (pyRoundInt (x * 100) : ℚ) ≤ (pyRoundInt (y * 100) : ℚ) := by
    exact_mod_cast this
  linarith

theorem round2_le_add (x : ℚ) : round2 x ≤ x + 1/200 := by
  simp only [round2]
  have := pyRoundInt_le_add_half (x * 100)
  linarith

theorem sub_le_round2 (x : ℚ) : x - 1/200 ≤ round2 x := by
  simp only [round2]
  have := sub_half_le_pyRoundInt (x * 100)
  linarith

theorem round2_int_div_100 (n : ℤ) : round2 ((n : ℚ) / 100) = (n : ℚ) / 100 := by
  simp only [round2]
  rw [show (n : ℚ) / 100 * 100 = (n : ℚ) by field_simp, pyRoundInt_intCast]

theorem round2_zero : round2 0 = 0 := by
  have := round2_int_div_100 0
  norm_num at this
  simpa using this

theorem ratTrunc_eq_floor {x : ℚ} (h : 0 ≤ x) : ratTrunc x = ⌊x⌋ := by
  simp only [ratTrunc]
  rw [if_neg (by linarith)]

theorem ratTrunc_nonneg {x : ℚ} (h : 0 ≤ x) : 0 ≤ ratTrunc x := by
  rw [ratTrunc_eq_floor h]
  exact Int.floor_nonneg.mpr h

/-! ## Facts about the calculation core -/

theorem promo_discount_nonneg (s rate : ℚ) (p : ℤ) (rd : Bool) (hs : 0 ≤ s)
    (hr : 0 ≤ rate) : 0 ≤ (computeTransaction s rate p rd).promo_discount := by
  simp only [computeTransaction]
  exact round2_nonneg (mul_nonneg hs hr)

theorem loyalty_value_nonneg (s rate : ℚ) (p : ℤ) (rd : Bool) (hs : 0 ≤ s) :
    0 ≤ (computeTransaction s rate p rd).loyalty_value := by
  simp only [computeTransaction]
  split_ifs with h
  · refine le_min (round2_nonneg (by positivity)) (round2_nonneg ?_)
    have : (0 : ℚ) ≤ (p : ℚ) := by exact_mod_cast h.2.le
    positivity
  · exact le_refl 0

theorem loyalty_value_le_cap (s rate : ℚ) (p : ℤ) (rd : Bool) (hs : 0 ≤ s) :
    (computeTransaction s rate p rd).loyalty_value ≤ round2 (s * (20/100)) := by
  simp only [computeTransaction]
  split_ifs with h
  · exact min_le_left _ _
  · exact round2_nonneg (by positivity)

theorem loyalty_redeemed_nonneg (s rate : ℚ) (p : ℤ) (rd : Bool) (hs : 0 ≤ s) :
    0 ≤ (computeTransaction s rate p rd).loyalty_redeemed := by
  have hlv := loyalty_value_nonneg s rate p rd hs
  simp only [computeTransaction] at hlv ⊢
  split_ifs with h <;> simp only [] at hlv ⊢
  · rw [if_pos h] at hlv
    exact ratTrunc_nonneg (by positivity)
  · exact le_refl 0

theorem intermediate_total_nonneg (s rate : ℚ) (p : ℤ) (rd : Bool) :
    0 ≤ (computeTransaction s rate p rd).intermediate_total := by
  simp only [computeTransaction]
  split_ifs with h <;> linarith

theorem intermediate_total_le (s rate : ℚ) (p : ℤ) (rd : Bool) (hs : 0 ≤ s)
    (hr : 0 ≤ rate) :
    (computeTransaction s rate p rd).intermediate_total ≤ s := by
  have hp := promo_discount_nonneg s rate p rd hs hr
  have hlv := loyalty_value_nonneg s rate p rd hs
  simp only [computeTransaction] at hp hlv ⊢
  split_ifs at hp hlv ⊢ with h <;> simp only [] at hp hlv ⊢ <;> linarith

theorem final_total_eq (s rate : ℚ) (p : ℤ) (rd : Bool) :
    (computeTransaction s rate p rd).final_total
      = round2 (computeTransaction s rate p rd).intermediate_total := by
  simp only [computeTransaction]

theorem points_earned_nonneg (s rate : ℚ) (p : ℤ) (rd : Bool) :
    0 ≤ (computeTransaction s rate p rd).points_earned := by
  have hit := intermediate_total_nonneg s rate p rd
  simp only [computeTransaction] at hit ⊢
  exact ratTrunc_nonneg (by positivity)

/-! ## Facts about the database operations -/

theorem find?_map_name_preserving (f : Customer → Customer)
    (hf : ∀ c, (f c).name = c.name) (l : List Customer) (q : String) :
    (l.map f).find? (fun c => c.name == q) = (l.find? (fun c => c.name == q)).map f := by
  induction l with
  | nil => rfl
  | cons c l ih =>
    by_cases h : (c.name == q) = true
    · have hfc : ((f c).name == q) = true := by rw [hf c]; exact h
      rw [List.map_cons,
        @List.find?_cons_of_pos _ (fun c => c.name == q) (f c) (List.map f l) hfc,
        @List.find?_cons_of_pos _ (fun c => c.name == q) c l h]
      rfl
    · have hfc : ¬ ((f c).name == q) = true := by rw [hf c]; exact h
      rw [List.map_cons,
        @List.find?_cons_of_neg _ (fun c => c.name == q) (f c) (List.map f l) hfc,
        @List.find?_cons_of_neg _ (fun c => c.name == q) c l h]
      exact ih

theorem get_customer_update_self (db : DBState) (name : String) (p : ℤ) :
    get_customer (update_loyalty_points db name p) name
      = (get_customer db name).map
          (fun c => if c.name == name then { c with loyalty_points := p } else c) := by
  simp only [get_customer, update_loyalty_points]
  exact find?_map_name_preserving _ (fun c => by split_ifs <;> rfl) _ _

theorem get_customer_update_ne (db : DBState) (name q : String) (p : ℤ)
    (h : q ≠ name) :
    get_customer (update_loyalty_points db name p) q = get_customer db q := by
  simp only [get_customer, update_loyalty_points]
  rw [find?_map_name_preserving _ (fun c => by split_ifs <;> rfl) _ _]
  cases hf : db.customers.find? (fun c => c.name == q) with
  | none => rfl
  | some c =>
    have hcq : c.name = q := by simpa using List.find?_some hf
    have hne : ¬ (c.name == name) = true := by
      rw [hcq]
      simpa using h
    show some (if (c.name == name) = true then { c with loyalty_points := p } else c) = some c
    rw [if_neg hne]

theorem find?_append_cases (l1 l2 : List Customer) (p : Customer → Bool) :
    (l1 ++ l2).find? p
      = match l1.find? p with
        | some c => some c
        | none => l2.find? p := by
  induction l1 with
  | nil => rfl
  | cons c l ih =>
    by_cases h : p c = true
    · rw [List.cons_append, List.find?_cons_of_pos _ h, List.find?_cons_of_pos _ h]
    · rw [List.cons_append, List.find?_cons_of_neg _ h, List.find?_cons_of_neg _ h, ih]

theorem get_customer_add_fresh (db : DBState) (name ct m : String) (p : ℤ)
    (h : get_customer db name = none) :
    get_customer (add_or_update_customer db name ct m p) name
      = some ⟨name, ct, m, p⟩ := by
  simp only [get_customer, add_or_update_customer] at h ⊢
  rw [if_neg (by rw [h]; simp)]
  rw [find?_map_name_preserving _ (fun c => by split_ifs <;> rfl) _ _]
  rw [find?_append_cases, h]
  have hself : ((⟨name, ct, m, p⟩ : Customer).name == name) = true := by simp
  show Option.map _ (List.find? (fun c : Customer => c.name == name) ([⟨name, ct, m, p⟩] : List Customer)) = _
  rw [@List.find?_cons_of_pos Customer (fun c => c.name == name) ⟨name, ct, m, p⟩ [] hself]
  show some (if (name == name) = true then _ else _) = _
  rw [if_pos (by simp)]

theorem get_customer_add_existing (db : DBState) (name ct m : String) (p : ℤ)
    (c : Customer) (h : get_customer db name = some c) :
    get_customer (add_or_update_customer db name ct m p) name
      = some { c with membership := m, loyalty_points := p } := by
  simp only [get_customer, add_or_update_customer] at h ⊢
  rw [if_pos (by rw [h]; rfl)]
  rw [find?_map_name_preserving _ (fun c => by split_ifs <;> rfl) _ _, h]
  have hc : (c.name == name) = true := by simpa using List.find?_some h
  show some (if (c.name == name) = true then _ else _) = _
  rw [if_pos hc]

theorem get_customer_add_ne (db : DBState) (name ct m : String) (p : ℤ)
    (q : String) (hq : q ≠ name) :
    get_customer (add_or_update_customer db name ct m p) q
      = get_customer db q := by
  simp only [get_customer, add_or_update_customer]
  rw [find?_map_name_preserving _ (fun c => by split_ifs <;> rfl) _ _]
  have hmain :
      (if (db.customers.find? (fun c => c.name == name)).isSome then db.customers
        else db.customers ++ [⟨name, ct, m, p⟩]).find? (fun c => c.name == q)
        = db.customers.find? (fun c => c.name == q) := by
    split_ifs with hs
    · rfl
    · rw [find?_append_cases]
      cases hf : db.customers.find? (fun c => c.name == q) with
      | some c => rfl
      | none =>
        have hnew : ¬ ((⟨name, ct, m, p⟩ : Customer).name == q) = true := by
          simpa using fun hnq => hq hnq.symm
        show List.find? (fun c : Customer => c.name == q) ([⟨name, ct, m, p⟩] : List Customer) = none
        rw [@List.find?_cons_of_neg Customer (fun c => c.name == q) ⟨name, ct, m, p⟩ [] hnew]
        rfl
  rw [hmain]
  cases hf : db.customers.find? (fun c => c.name == q) with
  | none => rfl
  | some c =>
    have hcq : c.name = q := by simpa using List.find?_some hf
    have hne : ¬ (c.name == name) = true := by
      rw [hcq]
      simpa using hq
    show some (if (c.name == name) = true then _ else c) = some c
    rw [if_neg hne]

theorem mem_update_loyalty (db : DBState) (n : String) (p : ℤ) (c' : Customer)
    (h : c' ∈ (update_loyalty_points db n p).customers) :
    c'.loyalty_points = p ∨
      ∃ c, c ∈ db.customers ∧ c'.loyalty_points = c.loyalty_points := by
  simp only [update_loyalty_points] at h
  obtain ⟨c, hc, hfc⟩ := List.mem_map.mp h
  by_cases hn : (c.name == n) = true
  · left
    rw [← hfc, if_pos hn]
  · right
    exact ⟨c, hc, by rw [← hfc, if_neg hn]⟩

theorem mem_add_or_update (db : DBState) (n ct m : String) (p : ℤ) (c' : Customer)
    (h : c' ∈ (add_or_update_customer db n ct m p).customers) :
    c'.loyalty_points = p ∨
      ∃ c, c ∈ db.customers ∧ c'.loyalty_points = c.loyalty_points := by
  simp only [add_or_update_customer] at h
  obtain ⟨c, hc, hfc⟩ := List.mem_map.mp h
  by_cases hn : (c.name == n) = true
  · left
    rw [← hfc, if_pos hn]
  · right
    have hcdb : c ∈ db.customers := by
      split_ifs at hc with hs
      · exact hc
      · rcases List.mem_append.mp hc with h1 | h1
        · exact h1
        · exfalso
          apply hn
          have : c = ⟨n, ct, m, p⟩ := by simpa using h1
          rw [this]
          simp
    exact ⟨c, hcdb, by rw [← hfc, if_neg hn]⟩

theorem process_payment_ok_iff (db : DBState) (staffIn nameIn : String) (sub : ℚ)
    (promoIn : String) (rd : Bool) (ts : String) (out : DBState × CalcResult × ℤ) :
    process_payment db staffIn nameIn sub promoIn rd ts = .ok out ↔
      py_strip staffIn ≠ "" ∧ py_strip nameIn ≠ "" ∧ 0 ≤ sub ∧
        out = process_payment_apply db staffIn nameIn sub promoIn rd ts := by
  simp only [process_payment]
  split_ifs with h1 h2 h3
  · simp [h1]
  · simp [h2]
  · simp [h3, le_of_lt]
  · simp [h1, h2, not_lt.mp h3, eq_comm]

theorem ite_lt_zero_eq_max (x : ℚ) : (if x < 0 then (0:ℚ) else x) = max 0 x := by
  by_cases h : x < 0
  · rw [if_pos h, max_eq_left h.le]
  · rw [if_neg h, max_eq_right (not_lt.mp h)]

/-! ## C1: the calculation matches the spec's algorithm -/

/-- The transaction calculation exactly as the spec (§4.1) words it:
`promoDiscount = round(subtotal*rate, 2)`; if redemption is requested and
`balance > 0`, `redeemValue = min(round(subtotal*0.20, 2),
round(balance*0.05, 2))` and `pointsRedeemed = floor(redeemValue/0.05)`,
else both 0; `intermediateTotal = max(0, subtotal - promoDiscount -
redeemValue)`; `pointsEarned = floor(intermediateTotal*0.05)`;
`finalTotal = round(intermediateTotal, 2)`.  Output tuple:
`(promoDiscount, redeemValue, pointsRedeemed, finalTotal, pointsEarned)`. -/
def specCalculator (subtotal rate : ℚ) (balance : ℤ) (redeem : Bool) :
    ℚ × ℚ × ℤ × ℚ × ℤ :=
  let promoDiscount := round2 (subtotal * rate)
  let redemption :=
    if redeem ∧ 0 < balance then
      let maxRedeemValue := round2 (subtotal * (20/100))
      let possibleValue := round2 ((balance : ℚ) * (5/100))
      let redeemValue := min maxRedeemValue possibleValue
      (redeemValue, ⌊redeemValue / (5/100)⌋)
    else ((0:ℚ), (0:ℤ))
  let intermediateTotal := max 0 (subtotal - promoDiscount - redemption.1)
  let pointsEarned := ⌊intermediateTotal * (5/100)⌋
  let finalTotal := round2 intermediateTotal
  (promoDiscount, redemption.1, redemption.2, finalTotal, pointsEarned)

/-- C1: for every subtotal ≥ 0, promo rate in [0,1], non-negative point
balance and redemption flag, the calculation performed by
`process_payment` returns exactly the tuple prescribed by the spec's
algorithm. -/
theorem c1_calculation_matches_spec (s rate : ℚ) (p : ℤ) (rd : Bool)
    (hs : 0 ≤ s) (hr0 : 0 ≤ rate) (hr1 : rate ≤ 1) (hp : 0 ≤ p) :
    ((computeTransaction s rate p rd).promo_discount,
      (computeTransaction s rate p rd).loyalty_value,
      (computeTransaction s rate p rd).loyalty_redeemed,
      (computeTransaction s rate p rd).final_total,
      (computeTransaction s rate p rd).points_earned)
      = specCalculator s rate p rd := by
  simp only [computeTransaction, specCalculator]
  by_cases hred : rd = true ∧ 0 < p
  · rw [if_pos hred, if_pos hred]
    dsimp only
    have hL : 0 ≤ min (round2 (s * (20/100))) (round2 ((p:ℚ) * (5/100))) := by
      refine le_min (round2_nonneg (by positivity)) (round2_nonneg ?_)
      have : (0:ℚ) ≤ (p:ℚ) := by exact_mod_cast hp
      positivity
    rw [ratTrunc_eq_floor (div_nonneg hL (by norm_num))]
    rw [ite_lt_zero_eq_max]
    rw [ratTrunc_eq_floor (mul_nonneg (le_max_left 0 _) (by norm_num))]
  · rw [if_neg hred, if_neg hred]
    dsimp only
    rw [ite_lt_zero_eq_max]
    rw [ratTrunc_eq_floor (mul_nonneg (le_max_left 0 _) (by norm_num))]

/-- Witness for C1 at subtotal 50, rate 0.10, balance 500, redeeming. -/
theorem c1_calculation_matches_spec_witness :
    ((computeTransaction 50 (10/100) 500 true).promo_discount,
      (computeTransaction 50 (10/100) 500 true).loyalty_value,
      (computeTransaction 50 (10/100) 500 true).loyalty_redeemed,
      (computeTransaction 50 (10/100) 500 true).final_total,
      (computeTransaction 50 (10/100) 500 true).points_earned)
      = specCalculator 50 (10/100) 500 true :=
  c1_calculation_matches_spec 50 (10/100) 500 true (by norm_num) (by norm_num)
    (by norm_num) (by norm_num)

/-! ## C9: the worked scenario from the spec -/

/-- Database for the C9 scenario: customer `Ram` with 500 points, the
seeded promo codes, no sales yet. -/
def c9_db : DBState :=
  ⟨[⟨"Ram", "", "regular", 500⟩], [("SPICY10", 10/100), ("HOT20", 20/100)], []⟩

/-- C9: subtotal 50, no promo code, balance 500, redeeming: redeem value
10.00 (200 points), final total 40.00, 2 points earned, and the stored
balance becomes 500 - 200 + 2 = 302. -/
theorem c9_scenario :
    process_payment c9_db "S" "Ram" 50 "" true "t"
      = .ok (⟨[⟨"Ram", "", "regular", 302⟩],
              [("SPICY10", 10/100), ("HOT20", 20/100)],
              [⟨"t", "Ram", "S", 50, 10, 200, 40, 2⟩]⟩,
             ⟨0, 10, 200, 40, 2, 40⟩, 302) := by
  have h1 : py_strip "S" = "S" := by decide
  have h2 : py_strip "Ram" = "Ram" := by decide
  have h3 : py_strip (py_upper "") = "" := by decide
  have h4 : get_customer c9_db "Ram" = some ⟨"Ram", "", "regular", 500⟩ := by decide
  have h5 : current_balance c9_db "Ram" = 500 := by decide
  have hrate : effective_promo_rate c9_db "" = 0 := by
    simp [effective_promo_rate, h3]
  have hct : computeTransaction 50 0 500 true = ⟨0, 10, 200, 40, 2, 40⟩ := by
    simp only [computeTransaction]
    rw [if_pos (show True ∧ (0:ℤ) < 500 from ⟨trivial, by norm_num⟩)]
    norm_num [round2, pyRoundInt, ratTrunc, CalcResult.mk.injEq]
  rw [process_payment_ok_iff]
  refine ⟨by rw [h1]; decide, by rw [h2]; decide, by norm_num, ?_⟩
  simp only [process_payment_apply, h1, h2, h4, h5, hrate, hct,
    Option.isSome_some, eq_self_iff_true, if_true]
  simp only [update_loyalty_points, record_sale, c9_db]
  norm_num [DBState.mk.injEq, SaleRecord.mk.injEq, Customer.mk.injEq,
    round2, pyRoundInt]

/-! ## C3: bounds on the final total -/

/-- C3 counterexample: at subtotal 0.006 (rate 0, no redemption) the final
total is `round(0.006, 2) = 0.01`, which exceeds the subtotal.  The claim
`finalTotal ≤ subtotal` therefore fails for sub-cent subtotals. -/
theorem c3_counterexample :
    ¬ ((computeTransaction (3/500) 0 0 false).final_total ≤ 3/500) := by
  have h : computeTransaction (3/500) 0 0 false = ⟨0, 0, 0, 3/500, 0, 1/100⟩ := by
    simp only [computeTransaction]
    norm_num [round2, pyRoundInt, ratTrunc, CalcResult.mk.injEq]
  rw [h]
  norm_num

/-- C3 (amended): for every subtotal ≥ 0, promo rate in [0,1], balance and
redemption flag, `0 ≤ finalTotal` and `finalTotal ≤ round(subtotal, 2)`
(hence `finalTotal ≤ subtotal` whenever the subtotal is a whole number of
cents). -/
theorem c3_amended (s rate : ℚ) (p : ℤ) (rd : Bool)
    (hs : 0 ≤ s) (hr0 : 0 ≤ rate) (hr1 : rate ≤ 1) :
    0 ≤ (computeTransaction s rate p rd).final_total ∧
      (computeTransaction s rate p rd).final_total ≤ round2 s := by
  have h1 := intermediate_total_nonneg s rate p rd
  have h2 := intermediate_total_le s rate p rd hs hr0
  rw [final_total_eq]
  exact ⟨round2_nonneg h1, round2_mono h2⟩

/-- Witness for C3 (amended) at subtotal 50, rate 0.10, balance 500. -/
theorem c3_amended_witness :
    0 ≤ (computeTransaction 50 (10/100) 500 true).final_total ∧
      (computeTransaction 50 (10/100) 500 true).final_total ≤ round2 50 :=
  c3_amended 50 (10/100) 500 true (by norm_num) (by norm_num) (by norm_num)

/-! ## C6: bounds on the recorded sale -/

theorem promo_discount_eq (s rate : ℚ) (p : ℤ) (rd : Bool) :
    (computeTransaction s rate p rd).promo_discount = round2 (s * rate) := by
  simp only [computeTransaction]

theorem loyalty_value_int_form (s rate : ℚ) (p : ℤ) (rd : Bool) :
    ∃ C : ℤ, (computeTransaction s rate p rd).loyalty_value = (C:ℚ)/100 := by
  simp only [computeTransaction]
  split_ifs with h
  · refine ⟨min (pyRoundInt (s * (20/100) * 100)) (pyRoundInt ((p:ℚ) * (5/100) * 100)), ?_⟩
    simp only [round2]
    push_cast
    rw [min_div_div_right (by norm_num : (0:ℚ) ≤ 100)]
  · exact ⟨0, by norm_num⟩

theorem pyRoundInt_four_fifths_add (k : ℕ) :
    pyRoundInt (4*(k:ℚ)/5) + pyRoundInt ((k:ℚ)/5) ≤ (k:ℤ) := by
  obtain ⟨q, r, hr, hk⟩ : ∃ q r, r < 5 ∧ k = 5*q + r :=
    ⟨k/5, k%5, Nat.mod_lt _ (by norm_num), (Nat.div_add_mod k 5).symm⟩
  subst hk
  have e1 : 4*(((5*q+r:ℕ)):ℚ)/5 = ((4*q:ℤ):ℚ) + 4*(r:ℚ)/5 := by push_cast; ring
  have e2 : (((5*q+r:ℕ)):ℚ)/5 = ((q:ℤ):ℚ) + (r:ℚ)/5 := by push_cast; ring
  have hr1 : 4*(r:ℚ)/5 - ⌊4*(r:ℚ)/5⌋ ≠ 1/2 := by interval_cases r <;> norm_num
  have hr2 : (r:ℚ)/5 - ⌊(r:ℚ)/5⌋ ≠ 1/2 := by interval_cases r <;> norm_num
  rw [e1, e2, pyRoundInt_int_add_of_ne_half _ hr1, pyRoundInt_int_add_of_ne_half _ hr2]
  have hkey : pyRoundInt (4*(r:ℚ)/5) + pyRoundInt ((r:ℚ)/5) ≤ (r:ℤ) := by
    interval_cases r <;> norm_num [pyRoundInt]
  push_cast
  omega

theorem process_payment_apply_sales (db : DBState) (staffIn nameIn : String)
    (sub : ℚ) (promoIn : String) (rd : Bool) (ts : String) :
    (process_payment_apply db staffIn nameIn sub promoIn rd ts).1.sales
      = db.sales ++
        [⟨ts, py_strip nameIn, py_strip staffIn, sub,
          round2 ((computeTransaction sub (effective_promo_rate db promoIn)
                (current_balance db (py_strip nameIn)) rd).promo_discount
              + (computeTransaction sub (effective_promo_rate db promoIn)
                (current_balance db (py_strip nameIn)) rd).loyalty_value),
          (computeTransaction sub (effective_promo_rate db promoIn)
            (current_balance db (py_strip nameIn)) rd).loyalty_redeemed,
          (computeTransaction sub (effective_promo_rate db promoIn)
            (current_balance db (py_strip nameIn)) rd).final_total,
          (computeTransaction sub (effective_promo_rate db promoIn)
            (current_balance db (py_strip nameIn)) rd).points_earned⟩] := by
  simp only [process_payment_apply, record_sale, update_loyalty_points]
  split_ifs <;> rfl

theorem discount_le_cents (k : ℕ) (rate : ℚ) (p : ℤ) (rd : Bool)
    (hr0 : 0 ≤ rate) (hr1 : rate ≤ 4/5) :
    round2 ((computeTransaction ((k:ℚ)/100) rate p rd).promo_discount
        + (computeTransaction ((k:ℚ)/100) rate p rd).loyalty_value)
      ≤ (k:ℚ)/100 := by
  have hs0 : (0:ℚ) ≤ (k:ℚ)/100 := by positivity
  have hpromo : (computeTransaction ((k:ℚ)/100) rate p rd).promo_discount
      = (pyRoundInt ((k:ℚ)/100 * rate * 100) : ℚ)/100 := by
    rw [promo_discount_eq]
    simp only [round2]
  have hA : pyRoundInt ((k:ℚ)/100 * rate * 100) ≤ pyRoundInt (4*(k:ℚ)/5) := by
    apply pyRoundInt_mono
    have e : (k:ℚ)/100 * rate * 100 = (k:ℚ) * rate := by ring
    have e2 : 4*(k:ℚ)/5 = (k:ℚ) * (4/5) := by ring
    rw [e, e2]
    exact mul_le_mul_of_nonneg_left hr1 (by positivity)
  obtain ⟨C, hC⟩ := loyalty_value_int_form ((k:ℚ)/100) rate p rd
  have hCle : C ≤ pyRoundInt ((k:ℚ)/5) := by
    have hcap := loyalty_value_le_cap ((k:ℚ)/100) rate p rd hs0
    rw [hC] at hcap
    have hc2 : round2 ((k:ℚ)/100 * (20/100)) = (pyRoundInt ((k:ℚ)/5) : ℚ)/100 := by
      simp only [round2]
      congr 2
      ring
    rw [hc2] at hcap
    exact_mod_cast (div_le_div_right (show (0:ℚ) < 100 by norm_num)).mp hcap
  have hkey := pyRoundInt_four_fifths_add k
  rw [hpromo, hC]
  have hsum : (pyRoundInt ((k:ℚ)/100 * rate * 100):ℚ)/100 + (C:ℚ)/100
      = ((pyRoundInt ((k:ℚ)/100 * rate * 100) + C : ℤ):ℚ)/100 := by
    push_cast
    ring
  rw [hsum, round2_int_div_100]
  have hle : (pyRoundInt ((k:ℚ)/100 * rate * 100) + C : ℤ) ≤ (k:ℤ) := by omega
  have : ((pyRoundInt ((k:ℚ)/100 * rate * 100) + C : ℤ):ℚ) ≤ (k:ℚ) := by
    exact_mod_cast hle
  linarith

/-- Database for the C6 counterexample: customer `Bob` with 10000 points
and a promo code with rate 1 (a rate the spec's data model allows, since
rates range over [0,1]). -/
def c6_db : DBState := ⟨[⟨"Bob", "", "regular", 10000⟩], [("MEGA", 1)], []⟩

/-- C6 counterexample: subtotal 100, promo rate 1, redeeming with a large
balance.  The recorded sale carries `discount_amount = 120 > 100 = subtotal`
(promo discount 100 plus redemption value 20), so the claim that the
recorded discount never exceeds the subtotal is false.  (The recorded
final total is 0, still non-negative.) -/
theorem c6_counterexample :
    process_payment c6_db "S" "Bob" 100 "MEGA" true "t"
      = .ok (⟨[⟨"Bob", "", "regular", 9600⟩], [("MEGA", 1)],
              [⟨"t", "Bob", "S", 100, 120, 400, 0, 0⟩]⟩,
             ⟨100, 20, 400, 0, 0, 0⟩, 9600) ∧
    ¬ ((120:ℚ) ≤ (100:ℚ)) := by
  have h1 : py_strip "S" = "S" := by decide
  have h2 : py_strip "Bob" = "Bob" := by decide
  have h3 : py_strip (py_upper "MEGA") = "MEGA" := by decide
  have h4 : get_customer c6_db "Bob" = some ⟨"Bob", "", "regular", 10000⟩ := by decide
  have h5 : current_balance c6_db "Bob" = 10000 := by decide
  have hfind : c6_db.promo_codes.find? (fun q => q.1 == "MEGA") = some ("MEGA", 1) := by
    show List.find? (fun q : String × ℚ => q.1 == "MEGA") ([("MEGA", 1)] : List (String × ℚ))
      = some ("MEGA", 1)
    rw [@List.find?_cons_of_pos (String × ℚ) (fun q => q.1 == "MEGA") ("MEGA", 1) [] (by decide)]
  have hrate : effective_promo_rate c6_db "MEGA" = 1 := by
    simp [effective_promo_rate, get_promo_discount, h3, hfind]
  have hct : computeTransaction 100 1 10000 true = ⟨100, 20, 400, 0, 0, 0⟩ := by
    simp only [computeTransaction]
    rw [if_pos (show True ∧ (0:ℤ) < 10000 from ⟨trivial, by norm_num⟩)]
    norm_num [round2, pyRoundInt, ratTrunc, CalcResult.mk.injEq, min_def]
  refine ⟨?_, by norm_num⟩
  rw [process_payment_ok_iff]
  refine ⟨by rw [h1]; decide, by rw [h2]; decide, by norm_num, ?_⟩
  simp only [process_payment_apply, h1, h2, h4, h5, hrate, hct,
    Option.isSome_some, eq_self_iff_true, if_true]
  simp only [update_loyalty_points, record_sale, c6_db]
  norm_num [DBState.mk.injEq, SaleRecord.mk.injEq, Customer.mk.injEq,
    round2, pyRoundInt]

/-- C6 (amended): every sale record written by a successful
`process_payment` has a non-negative `final_total` (unconditionally, for
any promo rate and any subtotal); and its `discount_amount` never exceeds
its `subtotal` provided the subtotal is a whole number of cents `k/100`
and the effective promo rate lies in [0, 0.8] (so that the promo fraction
plus the 20% redemption cap cannot exceed 100% — the seeded codes, 0.10
and 0.20, qualify). -/
theorem c6_amended (db : DBState) (staffIn nameIn : String) (sub : ℚ)
    (promoIn : String) (rd : Bool) (ts : String) (db2 : DBState)
    (r : CalcResult) (np : ℤ)
    (h : process_payment db staffIn nameIn sub promoIn rd ts
      = .ok (db2, r, np)) :
    ∃ sale, db2.sales = db.sales ++ [sale] ∧
      sale.subtotal = sub ∧
      0 ≤ sale.final_total ∧
      (∀ k : ℕ, sub = (k:ℚ)/100 →
        0 ≤ effective_promo_rate db promoIn →
        effective_promo_rate db promoIn ≤ 4/5 →
        sale.discount_amount ≤ sale.subtotal) := by
  obtain ⟨hstaff, hname, hsub, hout⟩ := (process_payment_ok_iff _ _ _ _ _ _ _ _).mp h
  have hdb2 : db2 = (process_payment_apply db staffIn nameIn sub promoIn rd ts).1 :=
    congrArg Prod.fst hout
  refine ⟨_, by rw [hdb2, process_payment_apply_sales], rfl, ?_, ?_⟩
  · rw [final_total_eq]
    exact round2_nonneg (intermediate_total_nonneg _ _ _ _)
  · intro k hk hr0 hr1
    subst hk
    exact discount_le_cents k (effective_promo_rate db promoIn)
      (current_balance db (py_strip nameIn)) rd hr0 hr1

/-- Witness for C6 (amended): a zero-subtotal sale for an existing
customer with no promo code. -/
theorem c6_amended_witness :
    ∃ sale,
      (⟨[⟨"A", "", "regular", 0⟩], ([] : List (String × ℚ)),
          [⟨"t", "A", "S", 0, 0, 0, 0, 0⟩]⟩ : DBState).sales
        = (⟨[⟨"A", "", "regular", 0⟩], ([] : List (String × ℚ)),
            ([] : List SaleRecord)⟩ : DBState).sales ++ [sale] ∧
      sale.subtotal = (0:ℚ) ∧
      0 ≤ sale.final_total ∧
      (∀ k : ℕ, (0:ℚ) = (k:ℚ)/100 →
        0 ≤ effective_promo_rate ⟨[⟨"A", "", "regular", 0⟩], [], []⟩ "" →
        effective_promo_rate ⟨[⟨"A", "", "regular", 0⟩], [], []⟩ "" ≤ 4/5 →
        sale.discount_amount ≤ sale.subtotal) := by
  have h1 : py_strip "S" = "S" := by decide
  have h2 : py_strip "A" = "A" := by decide
  have h3 : py_strip (py_upper "") = "" := by decide
  have hdbv : get_customer ⟨[⟨"A", "", "regular", 0⟩], [], []⟩ "A"
      = some ⟨"A", "", "regular", 0⟩ := by decide
  have h5 : current_balance ⟨[⟨"A", "", "regular", 0⟩], [], []⟩ "A" = 0 := by decide
  have hrate : effective_promo_rate ⟨[⟨"A", "", "regular", 0⟩], [], []⟩ "" = 0 := by
    simp [effective_promo_rate, h3]
  have hct : computeTransaction 0 0 0 false = ⟨0, 0, 0, 0, 0, 0⟩ := by
    simp only [computeTransaction]
    norm_num [round2, pyRoundInt, ratTrunc, CalcResult.mk.injEq]
  refine c6_amended ⟨[⟨"A", "", "regular", 0⟩], [], []⟩ "S" "A" 0 "" false "t"
    ⟨[⟨"A", "", "regular", 0⟩], [], [⟨"t", "A", "S", 0, 0, 0, 0, 0⟩]⟩
    ⟨0, 0, 0, 0, 0, 0⟩ 0 ?_
  rw [process_payment_ok_iff]
  refine ⟨by rw [h1]; decide, by rw [h2]; decide, by norm_num, ?_⟩
  simp only [process_payment_apply, h1, h2, hdbv, h5, hrate, hct,
    Option.isSome_some, eq_self_iff_true, if_true]
  simp only [update_loyalty_points, record_sale]
  norm_num [DBState.mk.injEq, SaleRecord.mk.injEq, Customer.mk.injEq,
    round2, pyRoundInt]

/-! ## C2: the ledger update rule -/

theorem ite_lt_zero_eq_max_int (x : ℤ) : (if x < 0 then 0 else x) = max 0 x := by
  by_cases h : x < 0
  · rw [if_pos h]
    omega
  · rw [if_neg h]
    omega

theorem current_points1_eq (db : DBState) (n : String) :
    (if (get_customer db n).isSome then current_balance db n else 0)
      = current_balance db n := by
  cases h : get_customer db n <;> simp [h, current_balance]

/-- C2: a successful `process_payment` stores, for the (stripped) customer
name, the balance `max(0, currentBalance - pointsRedeemed + pointsEarned)`
(with `currentBalance = 0` when the customer did not exist); if the
customer did not exist a record with membership `'regular'` is created
(balance 0, then updated by the same rule). -/
theorem c2_ledger_update (db : DBState) (staffIn nameIn : String) (sub : ℚ)
    (promoIn : String) (rd : Bool) (ts : String) (db2 : DBState)
    (r : CalcResult) (np : ℤ)
    (h : process_payment db staffIn nameIn sub promoIn rd ts = .ok (db2, r, np)) :
    np = max 0 (current_balance db (py_strip nameIn)
        - r.loyalty_redeemed + r.points_earned) ∧
    (get_customer db2 (py_strip nameIn)).map Customer.loyalty_points = some np ∧
    (get_customer db (py_strip nameIn) = none →
      (get_customer db2 (py_strip nameIn)).map Customer.membership
        = some "regular") := by
  obtain ⟨h1, h2, h3, hout⟩ := (process_payment_ok_iff _ _ _ _ _ _ _ _).mp h
  have hdb2 : db2 = (process_payment_apply db staffIn nameIn sub promoIn rd ts).1 :=
    congrArg Prod.fst hout
  have hrr : r = (process_payment_apply db staffIn nameIn sub promoIn rd ts).2.1 :=
    congrArg (fun x => x.2.1) hout
  have hnp : np = (process_payment_apply db staffIn nameIn sub promoIn rd ts).2.2 :=
    congrArg (fun x => x.2.2) hout
  have hr2 : (process_payment_apply db staffIn nameIn sub promoIn rd ts).2.1
      = computeTransaction sub (effective_promo_rate db promoIn)
          (current_balance db (py_strip nameIn)) rd := rfl
  have hnp2 : (process_payment_apply db staffIn nameIn sub promoIn rd ts).2.2
      = max 0 (current_balance db (py_strip nameIn)
          - (computeTransaction sub (effective_promo_rate db promoIn)
              (current_balance db (py_strip nameIn)) rd).loyalty_redeemed
          + (computeTransaction sub (effective_promo_rate db promoIn)
              (current_balance db (py_strip nameIn)) rd).points_earned) := by
    show (if (if (get_customer db (py_strip nameIn)).isSome
          then current_balance db (py_strip nameIn) else 0)
            - _ + _ < 0 then 0 else _) = _
    rw [current_points1_eq, ite_lt_zero_eq_max_int]
  have hcust : get_customer db2 (py_strip nameIn)
      = get_customer
          (update_loyalty_points
            (if (get_customer db (py_strip nameIn)).isSome then db
              else add_or_update_customer db (py_strip nameIn) "" "regular" 0)
            (py_strip nameIn) np)
          (py_strip nameIn) := by
    rw [hdb2, hnp]
    rfl
  refine ⟨by rw [hnp, hnp2, hrr, hr2], ?_, ?_⟩
  · rw [hcust]
    cases h4 : get_customer db (py_strip nameIn) with
    | some c =>
      rw [if_pos (show (some c).isSome = true from rfl)]
      rw [get_customer_update_self, h4]
      have h4f : db.customers.find? (fun x => x.name == py_strip nameIn) = some c := h4
      have hc0 := List.find?_some h4f
      have hc : (c.name == py_strip nameIn) = true := hc0
      have hceq : c.name = py_strip nameIn := by simpa using hc
      simp [hceq]
    | none =>
      rw [if_neg (show ¬ (Option.none (α := Customer)).isSome = true by simp)]
      rw [get_customer_update_self, get_customer_add_fresh db _ _ _ _ h4]
      simp
  · intro h4
    rw [hcust, if_neg (by rw [h4]; simp)]
    rw [get_customer_update_self, get_customer_add_fresh db _ _ _ _ h4]
    simp

/-- Witness for C2: the database with `Ram` at 500 points, subtotal 50,
redeeming. -/
theorem c2_ledger_update_witness :
    302 = max 0 (current_balance c9_db (py_strip "Ram")
        - (⟨0, 10, 200, 40, 2, 40⟩ : CalcResult).loyalty_redeemed
        + (⟨0, 10, 200, 40, 2, 40⟩ : CalcResult).points_earned) ∧
    (get_customer (⟨[⟨"Ram", "", "regular", 302⟩],
        [("SPICY10", 10/100), ("HOT20", 20/100)],
        [⟨"t", "Ram", "S", 50, 10, 200, 40, 2⟩]⟩ : DBState)
      (py_strip "Ram")).map Customer.loyalty_points = some 302 ∧
    (get_customer c9_db (py_strip "Ram") = none →
      (get_customer (⟨[⟨"Ram", "", "regular", 302⟩],
          [("SPICY10", 10/100), ("HOT20", 20/100)],
          [⟨"t", "Ram", "S", 50, 10, 200, 40, 2⟩]⟩ : DBState)
        (py_strip "Ram")).map Customer.membership = some "regular") := by
  have h1 : py_strip "S" = "S" := by decide
  have h2 : py_strip "Ram" = "Ram" := by decide
  have h3 : py_strip (py_upper "") = "" := by decide
  have h4 : get_customer c9_db "Ram" = some ⟨"Ram", "", "regular", 500⟩ := by decide
  have h5 : current_balance c9_db "Ram" = 500 := by decide
  have hrate : effective_promo_rate c9_db "" = 0 := by
    simp [effective_promo_rate, h3]
  have hct : computeTransaction 50 0 500 true = ⟨0, 10, 200, 40, 2, 40⟩ := by
    simp only [computeTransaction]
    rw [if_pos (show True ∧ (0:ℤ) < 500 from ⟨trivial, by norm_num⟩)]
    norm_num [round2, pyRoundInt, ratTrunc, CalcResult.mk.injEq]
  have hok : process_payment c9_db "S" "Ram" 50 "" true "t"
      = .ok (⟨[⟨"Ram", "", "regular", 302⟩],
              [("SPICY10", 10/100), ("HOT20", 20/100)],
              [⟨"t", "Ram", "S", 50, 10, 200, 40, 2⟩]⟩,
             ⟨0, 10, 200, 40, 2, 40⟩, 302) := by
    rw [process_payment_ok_iff]
    refine ⟨by rw [h1]; decide, by rw [h2]; decide, by norm_num, ?_⟩
    simp only [process_payment_apply, h1, h2, h4, h5, hrate, hct,
      Option.isSome_some, eq_self_iff_true, if_true]
    simp only [update_loyalty_points, record_sale, c9_db]
    norm_num [DBState.mk.injEq, SaleRecord.mk.injEq, Customer.mk.injEq,
      round2, pyRoundInt]
  exact c2_ledger_update c9_db "S" "Ram" 50 "" true "t" _ _ _ hok

/-! ## C4: balances stay non-negative -/

theorem apply_np_eq (db : DBState) (staffIn nameIn : String) (sub : ℚ)
    (promoIn : String) (rd : Bool) (ts : String) :
    (process_payment_apply db staffIn nameIn sub promoIn rd ts).2.2
      = max 0 (current_balance db (py_strip nameIn)
          - (computeTransaction sub (effective_promo_rate db promoIn)
              (current_balance db (py_strip nameIn)) rd).loyalty_redeemed
          + (computeTransaction sub (effective_promo_rate db promoIn)
              (current_balance db (py_strip nameIn)) rd).points_earned) := by
  show (if (if (get_customer db (py_strip nameIn)).isSome
        then current_balance db (py_strip nameIn) else 0)
          - _ + _ < 0 then 0 else _) = _
  rw [current_points1_eq, ite_lt_zero_eq_max_int]

theorem add_update_customer_ok_inv (db db2 : DBState) (nameIn : String)
    (h : add_update_customer db nameIn = .ok db2) :
    py_strip nameIn ≠ "" ∧
      db2 = add_or_update_customer db (py_strip nameIn) "" "regular" 0 := by
  simp only [add_update_customer] at h
  split_ifs at h with hn
  cases h
  exact ⟨hn, rfl⟩

theorem step_preserves_nonneg (a b : DBState) (hstep : Step a b)
    (ih : ∀ c ∈ a.customers, 0 ≤ c.loyalty_points) :
    ∀ c ∈ b.customers, 0 ≤ c.loyalty_points := by
  cases hstep
  case pay staffIn nameIn sub promoIn rd ts r np hok =>
    intro c hc
    obtain ⟨h1, h2, h3, hout⟩ := (process_payment_ok_iff _ _ _ _ _ _ _ _).mp hok
    have hdb2 : b = (process_payment_apply a staffIn nameIn sub promoIn rd ts).1 :=
      congrArg Prod.fst hout
    rw [hdb2] at hc
    have hc2 : c ∈ (update_loyalty_points
        (if (get_customer a (py_strip nameIn)).isSome then a
          else add_or_update_customer a (py_strip nameIn) "" "regular" 0)
        (py_strip nameIn)
        (process_payment_apply a staffIn nameIn sub promoIn rd ts).2.2).customers := hc
    rcases mem_update_loyalty _ _ _ _ hc2 with hp | ⟨c0, hc0, hpts⟩
    · rw [hp, apply_np_eq]
      exact le_max_left _ _
    · rw [hpts]
      by_cases hs : (get_customer a (py_strip nameIn)).isSome = true
      · rw [if_pos hs] at hc0
        exact ih c0 hc0
      · rw [if_neg hs] at hc0
        rcases mem_add_or_update _ _ _ _ _ _ hc0 with hz | ⟨c1, hc1, hpts1⟩
        · rw [hz]
        · rw [hpts1]
          exact ih c1 hc1
  case addUpd nameIn hok =>
    intro c hc
    obtain ⟨hn, hdb2⟩ := add_update_customer_ok_inv _ _ _ hok
    rw [hdb2] at hc
    rcases mem_add_or_update _ _ _ _ _ _ hc with hz | ⟨c1, hc1, hpts⟩
    · rw [hz]
    · rw [hpts]
      exact ih c1 hc1

/-- C4: in every database state reachable from the fresh database through
the program's operations, every customer's loyalty balance is ≥ 0. -/
theorem c4_balances_nonneg (db : DBState) (h : Reachable db) :
    ∀ c ∈ db.customers, 0 ≤ c.loyalty_points := by
  induction h with
  | init =>
    intro c hc
    cases hc
  | step hr hstep ih =>
    exact step_preserves_nonneg _ _ hstep ih

/-- Witness for C4: the state reached by adding customer `Alice` to the
fresh database; her balance is 0 ≥ 0. -/
theorem c4_balances_nonneg_witness :
    0 ≤ (Customer.mk "Alice" "" "regular" 0).loyalty_points := by
  have h2 : py_strip "Alice" = "Alice" := by decide
  have hstep : add_update_customer initialState "Alice"
      = .ok ⟨[⟨"Alice", "", "regular", 0⟩],
             [("SPICY10", 10/100), ("HOT20", 20/100)], []⟩ := by
    simp only [add_update_customer, h2]
    rw [if_neg (by decide)]
    norm_num [add_or_update_customer, initialState, DBState.mk.injEq]
  exact c4_balances_nonneg _
    (Reachable.step Reachable.init (Step.addUpd _ _ _ hstep))
    ⟨"Alice", "", "regular", 0⟩ (by simp)

/-! ## C7: mutation paths for loyalty points -/

/-- C7 counterexample: the GUI's Add/Update Customer operation, applied to
an existing customer with 500 points, resets the stored balance to 0 — a
mutation of an existing customer's points outside the per-transaction
ledger rule. -/
theorem c7_counterexample :
    add_update_customer ⟨[⟨"Alice", "", "regular", 500⟩], [], []⟩ "Alice"
      = .ok ⟨[⟨"Alice", "", "regular", 0⟩], [], []⟩ ∧
    (500:ℤ) ≠ 0 := by
  refine ⟨?_, by decide⟩
  have h2 : py_strip "Alice" = "Alice" := by decide
  simp only [add_update_customer, h2]
  rw [if_neg (by decide)]
  norm_num [add_or_update_customer, DBState.mk.injEq]

/-- C7 (amended): whenever one program operation changes the stored
balance of an existing customer, either the operation is Add/Update
Customer for that name (which resets the balance to 0), or it is a payment
for that name and the new balance follows the ledger rule
`max(0, old - pointsRedeemed + pointsEarned)`.  These are the only two
mutation paths; any other operation leaves the balance unchanged. -/
theorem c7_amended (db db2 : DBState) (hstep : Step db db2)
    (name : String) (c c2 : Customer)
    (hc : get_customer db name = some c)
    (hc2 : get_customer db2 name = some c2)
    (hne : c2.loyalty_points ≠ c.loyalty_points) :
    c2.loyalty_points = 0 ∨
      ∃ staffIn nameIn sub promoIn rd ts r np,
        process_payment db staffIn nameIn sub promoIn rd ts = .ok (db2, r, np) ∧
        py_strip nameIn = name ∧
        c2.loyalty_points
          = max 0 (c.loyalty_points - CalcResult.loyalty_redeemed r
              + CalcResult.points_earned r) := by
  cases hstep
  case addUpd nameIn hok =>
    left
    obtain ⟨hn, hdb2⟩ := add_update_customer_ok_inv _ _ _ hok
    by_cases hname : name = py_strip nameIn
    · subst hname
      rw [hdb2, get_customer_add_existing db _ _ _ _ c hc] at hc2
      cases hc2
      rfl
    · rw [hdb2, get_customer_add_ne db _ _ _ _ _ hname, hc] at hc2
      cases hc2
      exact absurd rfl hne
  case pay staffIn nameIn sub promoIn rd ts r np hok =>
    obtain ⟨h1, h2, h3, hout⟩ := (process_payment_ok_iff _ _ _ _ _ _ _ _).mp hok
    have hdb2 : db2 = (process_payment_apply db staffIn nameIn sub promoIn rd ts).1 :=
      congrArg Prod.fst hout
    have hcust : get_customer db2 name
        = get_customer
            (update_loyalty_points
              (if (get_customer db (py_strip nameIn)).isSome then db
                else add_or_update_customer db (py_strip nameIn) "" "regular" 0)
              (py_strip nameIn)
              (process_payment_apply db staffIn nameIn sub promoIn rd ts).2.2)
            name := by
      rw [hdb2]
      rfl
    by_cases hname : name = py_strip nameIn
    · right
      refine ⟨staffIn, nameIn, sub, promoIn, rd, ts, r, np, hok, hname.symm, ?_⟩
      subst hname
      rw [hcust, if_pos (by rw [hc]; rfl), get_customer_update_self, hc] at hc2
      have hcf : db.customers.find? (fun x => x.name == py_strip nameIn) = some c := hc
      have hcb0 := List.find?_some hcf
      have hcb : (c.name == py_strip nameIn) = true := hcb0
      simp only [Option.map_some'] at hc2
      rw [if_pos hcb] at hc2
      cases hc2
      show (process_payment_apply db staffIn nameIn sub promoIn rd ts).2.2 = _
      have hrr : r = (process_payment_apply db staffIn nameIn sub promoIn rd ts).2.1 :=
        congrArg (fun x => x.2.1) hout
      have hcb2 : current_balance db (py_strip nameIn) = c.loyalty_points := by
        simp [current_balance, hc]
      have h21 : (process_payment_apply db staffIn nameIn sub promoIn rd ts).2.1
          = computeTransaction sub (effective_promo_rate db promoIn)
              (current_balance db (py_strip nameIn)) rd := rfl
      rw [apply_np_eq, hrr, h21, hcb2]
    · exfalso
      rw [hcust, get_customer_update_ne _ _ _ _ hname] at hc2
      by_cases hs : (get_customer db (py_strip nameIn)).isSome = true
      · rw [if_pos hs, hc] at hc2
        cases hc2
        exact hne rfl
      · rw [if_neg hs, get_customer_add_ne db _ _ _ _ _ hname, hc] at hc2
        cases hc2
        exact hne rfl

/-- Witness for C7 (amended): the Add/Update operation on `Alice`
(balance 500) resets her balance to 0, matching the first disjunct. -/
theorem c7_amended_witness :
    (0:ℤ) = 0 ∨
      ∃ staffIn nameIn sub promoIn rd ts r np,
        process_payment ⟨[⟨"Alice", "", "regular", 500⟩], [], []⟩
            staffIn nameIn sub promoIn rd ts
          = .ok (⟨[⟨"Alice", "", "regular", 0⟩], [], []⟩, r, np) ∧
        py_strip nameIn = "Alice" ∧
        (0:ℤ) = max 0 (500 - CalcResult.loyalty_redeemed r
            + CalcResult.points_earned r) := by
  have h2 : py_strip "Alice" = "Alice" := by decide
  have hok : add_update_customer ⟨[⟨"Alice", "", "regular", 500⟩], [], []⟩ "Alice"
      = .ok ⟨[⟨"Alice", "", "regular", 0⟩], [], []⟩ := by
    simp only [add_update_customer, h2]
    rw [if_neg (by decide)]
    norm_num [add_or_update_customer, DBState.mk.injEq]
  exact c7_amended _ _ (Step.addUpd _ _ _ hok) "Alice"
    ⟨"Alice", "", "regular", 500⟩ ⟨"Alice", "", "regular", 0⟩
    (by decide) (by decide) (by decide)

/-! ## C8: unknown or absent promo codes -/

/-- C8: when the promo entry normalises to the empty string or to a code
not present in the promo table, the rate used is 0, the promo discount is
0, and the transaction still succeeds (unknown codes are not errors). -/
theorem c8_unknown_promo (db : DBState) (staffIn nameIn : String) (sub : ℚ)
    (promoIn : String) (rd : Bool) (ts : String)
    (hstaff : py_strip staffIn ≠ "") (hname : py_strip nameIn ≠ "")
    (hsub : 0 ≤ sub)
    (hunk : py_strip (py_upper promoIn) = "" ∨
      ∀ p ∈ db.promo_codes, p.1 ≠ py_strip (py_upper promoIn)) :
    effective_promo_rate db promoIn = 0 ∧
    ∃ db2 r np,
      process_payment db staffIn nameIn sub promoIn rd ts = .ok (db2, r, np) ∧
      r.promo_discount = 0 := by
  have hrate : effective_promo_rate db promoIn = 0 := by
    rcases hunk with he | hu
    · simp [effective_promo_rate, he]
    · simp only [effective_promo_rate]
      split_ifs with hne
      · simp only [get_promo_discount]
        have hn : db.promo_codes.find?
            (fun p => p.1 == py_strip (py_upper promoIn)) = none := by
          apply List.find?_eq_none.mpr
          intro p hp
          simpa using hu p hp
        rw [hn]
      · rfl
  refine ⟨hrate, _, _, _,
    (process_payment_ok_iff _ _ _ _ _ _ _ _).mpr ⟨hstaff, hname, hsub, rfl⟩, ?_⟩
  show (computeTransaction sub (effective_promo_rate db promoIn)
      (current_balance db (py_strip nameIn)) rd).promo_discount = 0
  rw [promo_discount_eq, hrate, mul_zero, round2_zero]

/-- Witness for C8: the code `NOPE` against the seeded table. -/
theorem c8_unknown_promo_witness :
    effective_promo_rate initialState "NOPE" = 0 ∧
    ∃ db2 r np,
      process_payment initialState "S" "A" 10 "NOPE" false "t" = .ok (db2, r, np) ∧
      r.promo_discount = 0 :=
  c8_unknown_promo initialState "S" "A" 10 "NOPE" false "t"
    (by decide) (by decide) (by norm_num)
    (Or.inr (by decide))

/-! ## C10: promo code normalisation -/

/-- C10: the lookup key is the raw entry uppercased then stripped of
surrounding whitespace, so any casing or padding of a seeded code (here
`SPICY10`, rate 0.10, and `HOT20`, rate 0.20) matches it, while strings
differing in other characters match nothing and yield rate 0. -/
theorem c10_promo_normalization :
    (∀ s : String, effective_promo_rate initialState s
        = if py_strip (py_upper s) = "" then 0
          else get_promo_discount initialState (py_strip (py_upper s))) ∧
    effective_promo_rate initialState "spicy10" = 10/100 ∧
    effective_promo_rate initialState " Spicy10 " = 10/100 ∧
    effective_promo_rate initialState "SPICY10" = 10/100 ∧
    effective_promo_rate initialState "hot20" = 20/100 ∧
    effective_promo_rate initialState "SPICY1" = 0 ∧
    effective_promo_rate initialState "SPICY100" = 0 := by
  have hf1 : List.find? (fun p : String × ℚ => p.1 == "SPICY10")
      [("SPICY10", (10:ℚ)/100), ("HOT20", (20:ℚ)/100)]
        = some ("SPICY10", (10:ℚ)/100) := by
    rw [@List.find?_cons_of_pos (String × ℚ) (fun p => p.1 == "SPICY10")
      ("SPICY10", (10:ℚ)/100) _ (by decide)]
  have hf2 : List.find? (fun p : String × ℚ => p.1 == "HOT20")
      [("SPICY10", (10:ℚ)/100), ("HOT20", (20:ℚ)/100)]
        = some ("HOT20", (20:ℚ)/100) := by
    rw [@List.find?_cons_of_neg (String × ℚ) (fun p => p.1 == "HOT20")
      ("SPICY10", (10:ℚ)/100) _ (by decide)]
    rw [@List.find?_cons_of_pos (String × ℚ) (fun p => p.1 == "HOT20")
      ("HOT20", (20:ℚ)/100) _ (by decide)]
  have hf3 : List.find? (fun p : String × ℚ => p.1 == "SPICY1")
      [("SPICY10", (10:ℚ)/100), ("HOT20", (20:ℚ)/100)] = none := by
    rw [@List.find?_cons_of_neg (String × ℚ) (fun p => p.1 == "SPICY1")
      ("SPICY10", (10:ℚ)/100) _ (by decide)]
    rw [@List.find?_cons_of_neg (String × ℚ) (fun p => p.1 == "SPICY1")
      ("HOT20", (20:ℚ)/100) _ (by decide)]
    rfl
  have hf4 : List.find? (fun p : String × ℚ => p.1 == "SPICY100")
      [("SPICY10", (10:ℚ)/100), ("HOT20", (20:ℚ)/100)] = none := by
    rw [@List.find?_cons_of_neg (String × ℚ) (fun p => p.1 == "SPICY100")
      ("SPICY10", (10:ℚ)/100) _ (by decide)]
    rw [@List.find?_cons_of_neg (String × ℚ) (fun p => p.1 == "SPICY100")
      ("HOT20", (20:ℚ)/100) _ (by decide)]
    rfl
  refine ⟨?_, ?_, ?_, ?_, ?_, ?_, ?_⟩
  · intro s
    by_cases h : py_strip (py_upper s) = "" <;> simp [effective_promo_rate, h]
  · simp [effective_promo_rate, get_promo_discount, initialState,
      show py_strip (py_upper "spicy10") = "SPICY10" from by decide, hf1]
  · simp [effective_promo_rate, get_promo_discount, initialState,
      show py_strip (py_upper " Spicy10 ") = "SPICY10" from by decide, hf1]
  · simp [effective_promo_rate, get_promo_discount, initialState,
      show py_strip (py_upper "SPICY10") = "SPICY10" from by decide, hf1]
  · simp [effective_promo_rate, get_promo_discount, initialState,
      show py_strip (py_upper "hot20") = "HOT20" from by decide, hf2]
  · simp [effective_promo_rate, get_promo_discount, initialState,
      show py_strip (py_upper "SPICY1") = "SPICY1" from by decide, hf3]
  · simp [effective_promo_rate, get_promo_discount, initialState,
      show py_strip (py_upper "SPICY100") = "SPICY100" from by decide, hf4]

/-! ## C5: the ledger write and the sale append are not atomic -/

/-- C5: each `DatabaseManager` method issues its own `conn.commit()`, so an
execution that fails between `update_loyalty_points` (line 249, committed)
and `record_sale` (line 264) leaves a half-recorded transaction.  At the
C9 inputs the interrupted run — modelled by `process_payment_ledger_only`
— commits the new balance 302 for `Ram` while the sale log is left
unchanged (empty): the ledger update is visible without its sale record,
contradicting the both-or-neither contract. -/
theorem c5_partial_commit :
    process_payment_ledger_only c9_db "S" "Ram" 50 "" true
      = .ok ⟨[⟨"Ram", "", "regular", 302⟩],
             [("SPICY10", 10/100), ("HOT20", 20/100)], []⟩ ∧
    (⟨[⟨"Ram", "", "regular", 302⟩],
        [("SPICY10", 10/100), ("HOT20", 20/100)], []⟩ : DBState).sales
      = c9_db.sales ∧
    get_customer (⟨[⟨"Ram", "", "regular", 302⟩],
        [("SPICY10", 10/100), ("HOT20", 20/100)], []⟩ : DBState) "Ram"
      ≠ get_customer c9_db "Ram" := by
  have h1 : py_strip "S" = "S" := by decide
  have h2 : py_strip "Ram" = "Ram" := by decide
  have h3 : py_strip (py_upper "") = "" := by decide
  have h4 : get_customer c9_db "Ram" = some ⟨"Ram", "", "regular", 500⟩ := by decide
  have h5 : current_balance c9_db "Ram" = 500 := by decide
  have hrate : effective_promo_rate c9_db "" = 0 := by
    simp [effective_promo_rate, h3]
  have hct : computeTransaction 50 0 500 true = ⟨0, 10, 200, 40, 2, 40⟩ := by
    simp only [computeTransaction]
    rw [if_pos (show True ∧ (0:ℤ) < 500 from ⟨trivial, by norm_num⟩)]
    norm_num [round2, pyRoundInt, ratTrunc, CalcResult.mk.injEq]
  refine ⟨?_, rfl, by decide⟩
  simp only [process_payment_ledger_only]
  rw [if_neg (by rw [h1]; decide), if_neg (by rw [h2]; decide),
    if_neg (by norm_num)]
  simp only [h2, h4, h5, hrate, hct, Option.isSome_some, eq_self_iff_true, if_true]
  simp only [update_loyalty_points, c9_db]
  norm_num [DBState.mk.injEq, Customer.mk.injEq]

/-- Witness for C10: the lowercase entry `spicy10` yields the seeded
rate 0.10. -/
theorem c10_promo_normalization_witness :
    effective_promo_rate initialState "spicy10" = 10/100 :=
  c10_promo_normalization.2.1
